import Mathlib

/-!
Verification of the analytical core of the `regresion_multiple` application
(`src/App.tsx`, `src/types.ts`): type coercion of tabular data, descriptive
statistics, the correlation matrix, regression-model training, and prediction.

Modelling conventions:
* JavaScript numbers are modelled by exact rationals `ℚ`.  Cells holding a
  finite parsed number are `Value.num q`; cells that failed to parse keep
  their string form (`Value.str s`); absent cells are `Value.missing`
  (JavaScript `undefined`).  Strings denoting non-finite numbers
  (`"Infinity"`, literals overflowing the double range) are outside the
  model and are treated as unparseable.
* Where non-finite numbers can genuinely arise — the coefficient vector
  returned by the external fitting routine — we use `JSNum`, rationals
  extended with `nan` and the two infinities, with IEEE-style arithmetic.
* The external libraries (`ml-regression`, `simple-statistics`) are not part
  of `src/`; the operations the specification assigns to them are modelled
  from the specification's words and marked as such in their doc comments.
  The fitting routine itself is kept as an explicit function parameter
  `fitFn`, so theorems quantifying over it hold for any fit outcome.
-/

/-- A processed cell value, as produced by the type-coercion layer of
`processParsedData` (`App.tsx`): a finite number, a string, or `undefined`. -/
inductive Value where
  | num (q : ℚ)
  | str (s : String)
  | missing
deriving DecidableEq

/-- A JavaScript number: a finite rational, `NaN`, or one of the infinities.
Used where the code can meet non-finite values (fit coefficients, metrics). -/
inductive JSNum where
  | finite (q : ℚ)
  | nan
  | inf
  | neginf
deriving DecidableEq

/-- IEEE-style addition on `JSNum` (JavaScript `+` on numbers). -/
def JSNum.add : JSNum → JSNum → JSNum
  | .finite a, .finite b => .finite (a + b)
  | .nan, _ => .nan
  | _, .nan => .nan
  | .inf, .neginf => .nan
  | .neginf, .inf => .nan
  | .inf, _ => .inf
  | _, .inf => .inf
  | .neginf, _ => .neginf
  | _, .neginf => .neginf

/-- IEEE-style negation on `JSNum`. -/
def JSNum.neg : JSNum → JSNum
  | .finite a => .finite (-a)
  | .nan => .nan
  | .inf => .neginf
  | .neginf => .inf

/-- IEEE-style subtraction on `JSNum` (JavaScript `-` on numbers). -/
def JSNum.sub (a b : JSNum) : JSNum := JSNum.add a (JSNum.neg b)

/-- IEEE-style multiplication on `JSNum` (JavaScript `*` on numbers). -/
def JSNum.mul : JSNum → JSNum → JSNum
  | .finite a, .finite b => .finite (a * b)
  | .nan, _ => .nan
  | _, .nan => .nan
  | .inf, .inf => .inf
  | .inf, .neginf => .neginf
  | .neginf, .inf => .neginf
  | .neginf, .neginf => .inf
  | .inf, .finite b => if 0 < b then .inf else if b < 0 then .neginf else .nan
  | .finite a, .inf => if 0 < a then .inf else if a < 0 then .neginf else .nan
  | .neginf, .finite b => if 0 < b then .neginf else if b < 0 then .inf else .nan
  | .finite a, .neginf => if 0 < a then .neginf else if a < 0 then .inf else .nan

/-- IEEE-style division on `JSNum` (JavaScript `/` on numbers; `0/0 = NaN`,
`x/0 = ±∞` for `x ≠ 0`, ignoring the sign of zero). -/
def JSNum.div : JSNum → JSNum → JSNum
  | .nan, _ => .nan
  | _, .nan => .nan
  | .finite a, .finite b =>
      if b ≠ 0 then .finite (a / b)
      else if 0 < a then .inf else if a < 0 then .neginf else .nan
  | .finite _, .inf => .finite 0
  | .finite _, .neginf => .finite 0
  | .inf, .finite b => if 0 ≤ b then .inf else .neginf
  | .neginf, .finite b => if 0 ≤ b then .neginf else .inf
  | .inf, .inf => .nan
  | .inf, .neginf => .nan
  | .neginf, .inf => .nan
  | .neginf, .neginf => .nan

/-- `Math.pow(x, 2)` as used by the training code. -/
def JSNum.pow2 (a : JSNum) : JSNum := JSNum.mul a a

/-- JavaScript `isNaN` on a number. -/
def jsIsNaN : JSNum → Bool
  | .nan => true
  | _ => false

/-- Whether a JavaScript number is finite. -/
def jsIsFinite : JSNum → Bool
  | .finite _ => true
  | _ => false

/-- JavaScript truthiness of a number (`NaN` and `0` are falsy). -/
def JSNum.truthy : JSNum → Bool
  | .nan => false
  | .finite q => decide (q ≠ 0)
  | _ => true

/-- Sum of a list of JavaScript numbers (an `Array.reduce` with
numeric accumulator starting at `0`). -/
def sumJS (l : List JSNum) : JSNum := l.foldl JSNum.add (.finite 0)

/-- Accumulate a run of leading decimal digits: returns the accumulated
value, the number of digits consumed, and the remaining characters. -/
def lexDigits : List Char → ℕ → ℕ → ℕ × ℕ × List Char
  | [], acc, n => (acc, n, [])
  | c :: cs, acc, n =>
      if c.isDigit then lexDigits cs (acc * 10 + (c.toNat - 48)) (n + 1)
      else (acc, n, c :: cs)

/-- Whitespace characters skipped by the JavaScript numeric conversions. -/
def jsWhitespace (c : Char) : Bool :=
  c = ' ' ∨ c = '\t' ∨ c = '\n' ∨ c = '\r'

/-- Parse an optional exponent part (`e`/`E`, optional sign, digits) at the
head of the character list, returning the exponent and remaining characters.
An `e` not followed by digits contributes no exponent (as in ECMA parsing,
where the exponent part is simply not consumed). -/
def lexExponent (cs : List Char) : ℤ × List Char :=
  match cs with
  | c :: r =>
      if c = 'e' ∨ c = 'E' then
        match r with
        | '-' :: r2 =>
            match lexDigits r2 0 0 with
            | (ev, en, rest) => if en = 0 then (0, cs) else (-(ev : ℤ), rest)
        | '+' :: r2 =>
            match lexDigits r2 0 0 with
            | (ev, en, rest) => if en = 0 then (0, cs) else ((ev : ℤ), rest)
        | _ =>
            match lexDigits r 0 0 with
            | (ev, en, rest) => if en = 0 then (0, cs) else ((ev : ℤ), rest)
      else (0, cs)
  | [] => (0, cs)

/-- `10 ^ n` as a rational (computed over `ℕ`, where large powers reduce
efficiently). -/
def pow10 (n : ℕ) : ℚ := ((10 ^ n : ℕ) : ℚ)

/-- `10 ^ e` for an integer exponent `e` as a rational. -/
def pow10z : ℤ → ℚ
  | .ofNat n => pow10 n
  | .negSucc n => 1 / pow10 (n + 1)

/-- The signed decimal literal at the head of the character list: mantissa
digits (integer part, optional fraction) and optional exponent.  Returns the
value and the remaining characters; `none` when no digit is present.
Models the numeric-literal grammar shared by ECMA `parseFloat` and
`ToNumber`, restricted to finite decimal notation. -/
def lexDecimal (cs0 : List Char) : Option (ℚ × List Char) :=
  let signAndRest : ℚ × List Char :=
    match cs0 with
    | '-' :: r => (-1, r)
    | '+' :: r => (1, r)
    | _ => (1, cs0)
  match signAndRest with
  | (sign, cs1) =>
    match lexDigits cs1 0 0 with
    | (ip, ipn, cs2) =>
      let fracAndRest : ℕ × ℕ × List Char :=
        match cs2 with
        | '.' :: r => lexDigits r 0 0
        | _ => (0, 0, cs2)
      match fracAndRest with
      | (fp, fpn, cs3) =>
        if ipn = 0 ∧ fpn = 0 then none
        else
          match lexExponent cs3 with
          | (ex, cs4) =>
            some (sign * ((ip : ℚ) + (fp : ℚ) / pow10 fpn) * pow10z ex, cs4)

/-- ECMA `parseFloat`, restricted to finite decimal literals: skip leading
whitespace, read the longest valid decimal-literal prefix, ignore any
trailing characters; `none` models a `NaN` result. -/
def jsParseFloat (s : String) : Option ℚ :=
  match lexDecimal (s.data.dropWhile jsWhitespace) with
  | some (q, _) => some q
  | none => none

/-- ECMA `ToNumber` on a string (the coercion performed by `isNaN`),
restricted to finite decimal literals: after trimming whitespace the whole
remainder must be a decimal literal; the empty/whitespace-only string
converts to `0`; `none` models a `NaN` result. -/
def jsToNumber (s : String) : Option ℚ :=
  let cs := (((s.data.dropWhile jsWhitespace).reverse).dropWhile jsWhitespace).reverse
  if cs = [] then some 0
  else
    match lexDecimal cs with
    | some (q, rest) => if rest = [] then some q else none
    | none => none

/-- Whether the character list starts with the literal `Infinity`. -/
def startsWithInfinity : List Char → Bool
  | 'I' :: 'n' :: 'f' :: 'i' :: 'n' :: 'i' :: 't' :: 'y' :: _ => true
  | _ => false

/-- The smallest magnitude at which a parsed decimal literal certainly
overflows an IEEE double: every value of magnitude `≥ 2^1024` parses to
`±Infinity` in JavaScript.  (Values between the largest finite double and
`2^1024` also overflow; the model conservatively keeps them finite, which
no claim relies on.) -/
def doubleOverflow : ℚ := ((2 ^ 1024 : ℕ) : ℚ)

/-- ECMA `parseFloat` as the running program observes it, including its
non-finite outcomes: the `Infinity`/`-Infinity` literals and decimal
literals overflowing the double range parse to `±∞`; `NaN` when no literal
is present; finite results are the exact rational of the literal.
`jsParseFloat` is its restriction to the finite outcomes. -/
def jsParseFloatFull (s : String) : JSNum :=
  let cs := s.data.dropWhile jsWhitespace
  let signedInf : Option JSNum :=
    match cs with
    | '-' :: r => if startsWithInfinity r then some .neginf else none
    | '+' :: r => if startsWithInfinity r then some .inf else none
    | _ => if startsWithInfinity cs then some .inf else none
  match signedInf with
  | some v => v
  | none =>
      match lexDecimal cs with
      | some (q, _) =>
          if doubleOverflow ≤ q then .inf
          else if q ≤ -doubleOverflow then .neginf
          else .finite q
      | none => .nan

/-! ## Type coercion layer (`processParsedData`, `App.tsx` lines 68–94) -/

/-- A raw cell value as delivered by the file parser: a string or a number. -/
inductive Raw where
  | str (s : String)
  | num (q : ℚ)
deriving DecidableEq

/-- A raw parsed row: a JavaScript object, modelled as an ordered
association list from column name to raw value. -/
abbrev RawRow := List (String × Raw)

/-- `row[key]` on a raw row (`none` models `undefined`). -/
def rawLookup (r : RawRow) (k : String) : Option Raw :=
  (r.find? (fun p => p.1 = k)).map Prod.snd

/-- `String(row[key])` on a raw row: missing cells stringify to
`"undefined"`.  The numeric case is never consulted by the coercion loop
(numeric raws always re-parse successfully); it renders the rational. -/
def rawToStr : Option Raw → String
  | none => "undefined"
  | some (.str s) => s
  | some (.num q) => toString q.num ++ "/" ++ toString q.den

/-- `parseFloat(String(row[key]))`, with `none` for a `NaN` result.  For a
raw numeric value the JavaScript round-trip through its string form is the
identity on finite doubles, so it parses back to itself. -/
def coerceCell : Option Raw → Option ℚ
  | none => none
  | some (.str s) => jsParseFloat s
  | some (.num q) => some q

/-- A processed row: total map from column name to processed cell
(`Value.missing` for columns never assigned). -/
abbrev Row := String → Value

/-- The processed dataset (`DataSet` in `types.ts`). -/
structure DataSet where
  data : List Row
  headers : List String
  numericHeaders : List String

/-- Build one processed row: for each header, store the parsed number when
`parseFloat` succeeds, otherwise the string form of the raw cell. -/
def processRow (headers : List String) (raw : RawRow) : Row := fun k =>
  if k ∈ headers then
    match coerceCell (rawLookup raw k) with
    | some q => .num q
    | none => .str (rawToStr (rawLookup raw k))
  else .missing

/-- One step of the `numericHeaders` accumulation: a header is appended the
first time a row's value for it parses successfully (`App.tsx` lines 80–84). -/
def stepNumeric (raw : RawRow) (nh : List String) (k : String) : List String :=
  if (coerceCell (rawLookup raw k)).isSome then
    (if k ∈ nh then nh else nh ++ [k])
  else nh

/-- The `numericHeaders` list built while mapping over all rows, scanning
the headers of each row in order. -/
def buildNumericHeaders (headers : List String) (data : List RawRow) : List String :=
  data.foldl (fun nh raw => headers.foldl (stepNumeric raw) nh) []

/-- `processParsedData` (`App.tsx` lines 68–94): reject an empty input,
fix the header set from the first row, coerce every cell, and classify the
numeric columns.  `none` models the empty-dataset rejection. -/
def processParsedData (data : List RawRow) : Option DataSet :=
  match data with
  | [] => none
  | first :: _ =>
      some { data := data.map (processRow (first.map Prod.fst)),
             headers := first.map Prod.fst,
             numericHeaders := buildNumericHeaders (first.map Prod.fst) data }

/-! ## Descriptive statistics (`stats`, `App.tsx` lines 155–171) -/

/-- JavaScript `isNaN` applied to a processed cell: numbers are never `NaN`
in the model; strings coerce through `ToNumber`; `undefined` coerces to
`NaN`.  (`v !== null` in the source filter is always true here: processed
cells are never `null`, and `undefined !== null` under strict equality.) -/
def jsIsNaNVal : Value → Bool
  | .num _ => false
  | .str s => (jsToNumber s).isNone
  | .missing => true

/-- The filtered value list of a column:
`data.map(row => row[header]).filter(v => v !== null && !isNaN(v))`. -/
def colValues (data : List Row) (h : String) : List Value :=
  (data.map (fun row => row h)).filter (fun v => !(jsIsNaNVal v))

/-- Numeric coercion of a filtered cell, as JavaScript arithmetic performs
it: numbers stand for themselves and strings coerce via `ToNumber` (every
string passing the filter coerces to a number; only empty or
whitespace-only strings, which coerce to `0`, can occur here). -/
def asNumber : Value → ℚ
  | .num q => q
  | .str s => (jsToNumber s).getD 0
  | .missing => 0

/-- The valid numbers of a column: the values that are genuine numeric
cells.  This is the reading of the specification's `isValidNumber`
predicate ("excludes both non-numeric strings and NaN/undefined
sentinels"), used to compare against the code's filter. -/
def validNumbers (data : List Row) (h : String) : List ℚ :=
  (data.map (fun row => row h)).filterMap
    (fun v => match v with | .num q => some q | _ => none)

/-- Sum of a list of rationals. -/
def qsum (l : List ℚ) : ℚ := l.foldl (fun a b => a + b) 0

/-- Modelled from the spec: `mean` of `simple-statistics` (not in `src/`) —
the arithmetic mean. -/
def qmean (l : List ℚ) : ℚ := qsum l / l.length

/-- Modelled from the spec: `min` of `simple-statistics` (not in `src/`). -/
def qmin (l : List ℚ) : ℚ :=
  match l with
  | [] => 0
  | a :: r => r.foldl min a

/-- Modelled from the spec: `max` of `simple-statistics` (not in `src/`). -/
def qmax (l : List ℚ) : ℚ :=
  match l with
  | [] => 0
  | a :: r => r.foldl max a

/-- Insert into a sorted list (ascending). -/
def insertSorted (x : ℚ) : List ℚ → List ℚ
  | [] => [x]
  | y :: r => if x ≤ y then x :: y :: r else y :: insertSorted x r

/-- Sort ascending (insertion sort). -/
def qsort (l : List ℚ) : List ℚ := l.foldr insertSorted []

/-- Modelled from the spec: `median` of `simple-statistics` (not in
`src/`) — sort-based, the average of the two middle elements on even
length. -/
def qmedian (l : List ℚ) : ℚ :=
  let s := qsort l
  if l.length % 2 = 1 then s.getD (l.length / 2) 0
  else ((s.getD (l.length / 2 - 1) 0) + s.getD (l.length / 2) 0) / 2

/-- Sum of squared deviations from the mean (`ssTotal` shape of
`App.tsx` line 348, also the numerator of the sample variance). -/
def ssqDev (l : List ℚ) : ℚ := qsum (l.map (fun v => (v - qmean l) ^ 2))

/-- Modelled from the spec: the square of `standardDeviation` as the
specification defines it — the sample variance, dividing by `n − 1`
("std is population-free sample standard deviation (divide by n−1)").
Square roots leave `ℚ`, so the engine's `std` is modelled through its
square, which determines it uniquely (`std ≥ 0`). -/
def sampleVarianceQ (l : List ℚ) : ℚ := ssqDev l / ((l.length : ℚ) - 1)

/-- Per-column descriptive statistics (`DescriptiveStats` entry in
`types.ts`), with `std` represented by its square `stdSq`. -/
structure ColStats where
  count : ℕ
  min : ℚ
  max : ℚ
  mean : ℚ
  median : ℚ
  stdSq : ℚ
deriving DecidableEq

/-- Assemble the statistics record of one column from its filtered values
(`App.tsx` lines 160–167). -/
def mkColStats (vs : List Value) : ColStats :=
  { count := vs.length
    min := qmin (vs.map asNumber)
    max := qmax (vs.map asNumber)
    mean := qmean (vs.map asNumber)
    median := qmedian (vs.map asNumber)
    stdSq := sampleVarianceQ (vs.map asNumber) }

/-- The descriptive-statistics map (`stats`, `App.tsx` lines 155–171):
a column appears exactly when it is a numeric header whose filtered value
list is non-empty; columns with an empty filtered list are omitted. -/
def stats (ds : DataSet) : String → Option ColStats := fun h =>
  if h ∈ ds.numericHeaders ∧ 0 < (colValues ds.data h).length then
    some (mkColStats (colValues ds.data h))
  else none

/-- The reported count of a column, when present. -/
def statCount (ds : DataSet) (h : String) : Option ℕ :=
  (stats ds h).map ColStats.count

/-! ## Correlation engine (`correlationMatrix`, `App.tsx` lines 173–190) -/

/-- The correlation matrix object: a partial map from an (outer, inner)
header pair to the stored value. -/
abbrev Mat := String → String → Option ℚ

/-- The empty matrix object. -/
def emptyMat : Mat := fun _ _ => none

/-- `matrix[h1] = {}`: reset one row. -/
def clearRow (M : Mat) (h : String) : Mat :=
  fun a b => if a = h then none else M a b

/-- `matrix[h1][h2] = v`: set one entry. -/
def setEntry (M : Mat) (h1 h2 : String) (v : ℚ) : Mat :=
  fun a b => if a = h1 ∧ b = h2 then some v else M a b

/-- The value column of a header: `data.map(row => row[h])`. -/
def colOf (data : List Row) (h : String) : List Value :=
  data.map (fun row => row h)

/-- The value written for the pair `(h1, h2)` (`App.tsx` lines 178–185):
`1` on the diagonal; the mirrored entry `matrix[h2][h1]` when already
present; otherwise a fresh correlation of the two columns.  The
correlation function itself (`sampleCorrelation` of `simple-statistics`,
not in `src/`) is a parameter, so the construction's properties hold for
any correlation function. -/
def corrEntry (corr : List Value → List Value → ℚ) (data : List Row)
    (M : Mat) (h1 h2 : String) : ℚ :=
  if h1 = h2 then 1
  else
    match M h2 h1 with
    | some v => v
    | none => corr (colOf data h1) (colOf data h2)

/-- The inner loop over `h2` filling row `h1`. -/
def corrInner (corr : List Value → List Value → ℚ) (data : List Row)
    (H : List String) (h1 : String) (M : Mat) : Mat :=
  H.foldl (fun N h2 => setEntry N h1 h2 (corrEntry corr data N h1 h2)) M

/-- `correlationMatrix` (`App.tsx` lines 173–190): the nested loops over
the numeric headers, resetting each outer row before filling it. -/
def correlationMatrix (corr : List Value → List Value → ℚ) (ds : DataSet) : Mat :=
  ds.numericHeaders.foldl
    (fun M h1 => corrInner corr ds.data ds.numericHeaders h1 (clearRow M h1))
    emptyMat

/-- The invariant maintained while the outer loop runs, `done` being the
outer headers already processed: unprocessed rows are empty; processed rows
are defined exactly on the header set; the processed block is symmetric
with unit diagonal; processed headers come from the header list. -/
def CorrInv (H done : List String) (M : Mat) : Prop :=
  (∀ a, a ∉ done → ∀ b, M a b = none) ∧
  (∀ a ∈ done, ∀ b, (M a b).isSome = true ↔ b ∈ H) ∧
  (∀ a ∈ done, ∀ b ∈ done, M a b = M b a) ∧
  (∀ a ∈ done, M a a = some 1) ∧
  (∀ a ∈ done, a ∈ H)

/-! ## Regression engine (`handleTrainModel`, `App.tsx` lines 319–376) -/

/-- Training failure modes.  `SelectionError` is the early return when no
dependent or no independent variable is selected; the other three are the
`InsufficientDataError`, `SingularMatrixError` and `ZeroVarianceError`
conditions of the specification. -/
inductive TrainError where
  | SelectionError
  | InsufficientDataError
  | SingularMatrixError
  | ZeroVarianceError
deriving DecidableEq

/-- The clean rows (`cleanData`, `App.tsx` lines 326–328): rows where the
dependent variable and every independent variable are numeric cells
(`typeof row[v] === 'number' && !isNaN(row[v])`; numeric cells are never
`NaN` in the model). -/
def isNumCell : Value → Bool
  | .num _ => true
  | _ => false

/-- The clean-row filter. -/
def cleanData (dv : String) (iv : List String) (data : List Row) : List Row :=
  data.filter (fun row => (dv :: iv).all (fun v => isNumCell (row v)))

/-- The dependent-variable vector over the clean rows (`y`). -/
def cleanY (dv : String) (iv : List String) (data : List Row) : List ℚ :=
  (cleanData dv iv data).map (fun row => asNumber (row dv))

/-- The independent-variable matrix over the clean rows (`x`). -/
def cleanX (dv : String) (iv : List String) (data : List Row) : List (List ℚ) :=
  (cleanData dv iv data).map (fun row => iv.map (fun k => asNumber (row k)))

/-- The coefficient vector returned by the external fitting routine for
this training request.  `ml-regression`'s weight matrix is `(k+1) × 1`;
its single column is modelled as a flat list `[intercept, coefficients…]`,
matching the source's extraction `intercept = weights[0][0]`,
`coefficients = weights.slice(1).flat()`. -/
def fitWeights (fitFn : List (List ℚ) → List ℚ → List JSNum)
    (dv : String) (iv : List String) (data : List Row) : List JSNum :=
  fitFn (cleanX dv iv data) (cleanY dv iv data)

/-- Modelled from the spec: `model.predict` of `ml-regression` (not in
`src/`) applied to one clean row — intercept plus the dot product of the
coefficients with the row, in `JSNum` arithmetic since fitted weights may
be non-finite. -/
def predictW (weights : List JSNum) (xrow : List ℚ) : JSNum :=
  JSNum.add (weights.headD JSNum.nan)
    (sumJS (List.zipWith (fun w xi => JSNum.mul w (JSNum.finite xi))
      (weights.drop 1) xrow))

/-- In-sample predictions over the clean rows. -/
def predictions (fitFn : List (List ℚ) → List ℚ → List JSNum)
    (dv : String) (iv : List String) (data : List Row) : List JSNum :=
  (cleanX dv iv data).map (predictW (fitWeights fitFn dv iv data))

/-- `ssTotal` (`App.tsx` line 348): total sum of squares of `y` around its
mean. -/
def ssTotal (dv : String) (iv : List String) (data : List Row) : ℚ :=
  ssqDev (cleanY dv iv data)

/-- `ssResidual` (`App.tsx` line 355): sum of squared residuals, in `JSNum`
arithmetic. -/
def ssResidual (fitFn : List (List ℚ) → List ℚ → List JSNum)
    (dv : String) (iv : List String) (data : List Row) : JSNum :=
  sumJS (List.zipWith (fun yi pi => JSNum.pow2 (JSNum.sub (JSNum.finite yi) pi))
    (cleanY dv iv data) (predictions fitFn dv iv data))

/-- The evaluation snapshot (`ModelResults` in `types.ts`), with `rmse`
represented by its square `rmseSq` (square roots leave `ℚ`). -/
structure ModelResults where
  coefficients : List JSNum
  intercept : JSNum
  rSquared : JSNum
  rSquaredAdjusted : JSNum
  rmseSq : JSNum
deriving DecidableEq

/-- The trained model and its evaluation as handed to `onModelTrain`
(`App.tsx` line 371). -/
structure TrainSuccess where
  weights : List JSNum
  results : ModelResults
  independentVars : List String
  dependentVar : String
deriving DecidableEq

/-- The metric computation of the successful branch
(`App.tsx` lines 355–370). -/
def trainSuccess (fitFn : List (List ℚ) → List ℚ → List JSNum)
    (dv : String) (iv : List String) (data : List Row) : TrainSuccess :=
  let w := fitWeights fitFn dv iv data
  let n : ℚ := (cleanData dv iv data).length
  let k : ℚ := iv.length
  let ssr := ssResidual fitFn dv iv data
  let rSq := JSNum.sub (.finite 1) (JSNum.div ssr (.finite (ssTotal dv iv data)))
  { weights := w
    results :=
      { coefficients := w.drop 1
        intercept := w.headD JSNum.nan
        rSquared := rSq
        rSquaredAdjusted :=
          JSNum.sub (.finite 1)
            (JSNum.div (JSNum.mul (JSNum.sub (.finite 1) rSq) (.finite (n - 1)))
              (.finite (n - k - 1)))
        rmseSq := JSNum.div ssr (.finite n) }
    independentVars := iv
    dependentVar := dv }

/-- `handleTrainModel` (`App.tsx` lines 319–376): the guard chain of the
training action.  Selection guard, clean-row count against `k + 2`, the
`NaN`-coefficient check on the fitted weights
(`model.weights.some(w => isNaN(w[0]))`, line 341), the zero-variance
check on `ssTotal` (line 350), then the metrics. -/
def handleTrainModel (fitFn : List (List ℚ) → List ℚ → List JSNum)
    (dv : String) (iv : List String) (ds : DataSet) :
    Except TrainError TrainSuccess :=
  if dv = "" ∨ iv = [] then .error .SelectionError
  else if (cleanData dv iv ds.data).length < iv.length + 2 then
    .error .InsufficientDataError
  else if (fitWeights fitFn dv iv ds.data).any jsIsNaN then
    .error .SingularMatrixError
  else if ssTotal dv iv ds.data = 0 then .error .ZeroVarianceError
  else .ok (trainSuccess fitFn dv iv ds.data)

/-- Whether a training attempt produced a model. -/
def isOkTrain : Except TrainError TrainSuccess → Bool
  | .ok _ => true
  | .error _ => false

/-! ## Application state (`App`, `App.tsx` lines 552–566) -/

/-- The application-level state relevant to training: the current dataset
and the current trained model with its results. -/
structure AppState where
  dataSet : Option DataSet
  model : Option TrainSuccess

/-- `handleModelTrain` (`App.tsx` lines 564–566): store the freshly trained
model, replacing any previous one wholesale. -/
def handleModelTrain (s : AppState) (out : TrainSuccess) : AppState :=
  { s with model := some out }

/-- `handleFileParsed` (`App.tsx` lines 558–562): a new dataset discards
the current model. -/
def handleFileParsed (_s : AppState) (nds : DataSet) : AppState :=
  { dataSet := some nds, model := none }

/-- One user-level "train" action: run `handleTrainModel` on the current
dataset; only a successful fit calls `onModelTrain` and touches the stored
model — every failure branch returns before that call. -/
def trainAction (fitFn : List (List ℚ) → List ℚ → List JSNum)
    (dv : String) (iv : List String) (s : AppState) : AppState :=
  match s.dataSet with
  | none => s
  | some ds =>
      match handleTrainModel fitFn dv iv ds with
      | .error _ => s
      | .ok out => handleModelTrain s out

/-! ## Prediction (`Predictor`, `App.tsx` lines 415–433) -/

/-- The trained model as the specification's data model describes it: fixed
ordered independent variables, dependent variable, intercept, and a
coefficient vector aligned positionally with the independent-variable
list. -/
structure TrainedModel where
  independentVars : List String
  dependentVar : String
  intercept : ℚ
  coefficients : List ℚ

/-- Prediction failure modes: the arity mismatch of the specification and
the invalid-input rejection of `handlePredict`. -/
inductive PredictError where
  | DimensionMismatchError
  | InvalidInputError
deriving DecidableEq

/-- Dot product of coefficient and input vectors, positionally. -/
def dotQ : List ℚ → List ℚ → ℚ
  | c :: cs, x :: xs => c * x + dotQ cs xs
  | _, _ => 0

/-- Modelled from the spec: the Predict operation of the regression engine
(`model.predict` of `ml-regression`, not in `src/`) — "intercept + dot
product of coefficients with the input vector, in the exact positional
order fixed at fit time.  Fails with `DimensionMismatchError` if input
length ≠ k." -/
def predictModel (m : TrainedModel) (input : List ℚ) : Except PredictError ℚ :=
  if input.length = m.coefficients.length then
    .ok (m.intercept + dotQ m.coefficients input)
  else .error .DimensionMismatchError

/-- The prediction-form state: the stored input value per variable name
(`inputs`, `App.tsx` lines 416–418, initialised to `0` for every
independent variable). -/
structure PredictorState where
  inputs : String → JSNum

/-- The initial prediction-form state. -/
def initPredictor : PredictorState := ⟨fun _ => .finite 0⟩

/-- `parseFloat(value) || 0`: the falsy results (`NaN`, `0`) are replaced
by `0`.  Truthy non-finite results — `Infinity` from an overflow literal
such as `1e999` or from the `Infinity` literal itself — are stored as
they are. -/
def parseOrZero (value : String) : JSNum :=
  let p : JSNum := jsParseFloatFull value
  if JSNum.truthy p then p else .finite 0

/-- `handleInputChange` (`App.tsx` lines 421–423): store the coerced value
under the variable name. -/
def handleInputChange (s : PredictorState) (varName value : String) :
    PredictorState :=
  ⟨fun k => if k = varName then parseOrZero value else s.inputs k⟩

/-- A sequence of edit events applied to the prediction form. -/
def applyEvents (s : PredictorState) (evs : List (String × String)) :
    PredictorState :=
  evs.foldl (fun st e => handleInputChange st e.1 e.2) s

/-- Modelled from the spec: the same Predict operation as `predictModel`,
lifted to JavaScript numbers, since the values stored by the prediction
form may be non-finite (`Infinity` from overflow literals).  On finite
inputs it computes the same intercept-plus-dot-product. -/
def predictModelJS (m : TrainedModel) (input : List JSNum) :
    Except PredictError JSNum :=
  if input.length = m.coefficients.length then
    .ok (JSNum.add (.finite m.intercept)
      (sumJS (List.zipWith (fun c v => JSNum.mul (.finite c) v)
        m.coefficients input)))
  else .error .DimensionMismatchError

/-- `handlePredict` (`App.tsx` lines 425–433): gather one value per
independent variable, reject if any is `NaN`, else invoke the model's
predict on the stored values. -/
def handlePredict (m : TrainedModel) (iv : List String) (s : PredictorState) :
    Except PredictError JSNum :=
  if (iv.map s.inputs).any jsIsNaN then .error .InvalidInputError
  else predictModelJS m (iv.map s.inputs)

/-- No stored prediction input is `NaN`. -/
def allNotNaN (s : PredictorState) : Prop :=
  ∀ k, s.inputs k ≠ JSNum.nan

/-! ## Concrete instances used by witnesses and counterexamples -/

/-- Build a row directly from name–number pairs (a processed row all of
whose present cells are numeric). -/
def rowOf (l : List (String × ℚ)) : Row := fun k =>
  match l.find? (fun p => p.1 = k) with
  | some p => .num p.2
  | none => .missing

/-- The default dataset used to unwrap `processParsedData` in examples. -/
def defaultDS : DataSet := ⟨[], [], []⟩

/-- Raw input whose column `A` holds the parseable strings `"5"`, `"7"`
and the empty string: the code's filter keeps all three values. -/
def rawEx2c : List RawRow :=
  [[("A", .str "5")], [("A", .str "7")], [("A", .str "")]]

/-- The dataset the coercion layer produces from `rawEx2c`. -/
def dsEx2c : DataSet := (processParsedData rawEx2c).getD defaultDS

/-- Three clean rows over `y` and `x`, `y` non-constant. -/
def dsEx3 : DataSet :=
  ⟨[rowOf [("y", 1), ("x", 1)], rowOf [("y", 2), ("x", 2)],
    rowOf [("y", 3), ("x", 4)]], ["y", "x"], ["y", "x"]⟩

/-- Three clean rows over `y`, `a`, `b`: too few for two independent
variables. -/
def dsEx4 : DataSet :=
  ⟨[rowOf [("y", 1), ("a", 1), ("b", 2)], rowOf [("y", 2), ("a", 2), ("b", 1)],
    rowOf [("y", 3), ("a", 4), ("b", 5)]], ["y", "a", "b"], ["y", "a", "b"]⟩

/-- Three clean rows with a constant dependent variable. -/
def dsEx5 : DataSet :=
  ⟨[rowOf [("y", 5), ("x", 1)], rowOf [("y", 5), ("x", 2)],
    rowOf [("y", 5), ("x", 3)]], ["y", "x"], ["y", "x"]⟩

/-- Two numeric columns for the correlation-matrix witness. -/
def dsEx6 : DataSet :=
  ⟨[rowOf [("A", 1), ("B", 2)], rowOf [("A", 2), ("B", 5)]],
   ["A", "B"], ["A", "B"]⟩

/-- A deliberately asymmetric stand-in correlation function, exercising
that symmetry comes from mirroring rather than from the function. -/
def corrEx : List Value → List Value → ℚ :=
  fun v1 v2 => (v1.length : ℚ) - 2 * (v2.length : ℚ) + 7

/-- Raw input whose column `A` holds the parseable string `"5"` and the
empty string. -/
def rawEx7 : List RawRow := [[("A", .str "5")], [("A", .str "")]]

/-- The dataset the coercion layer produces from `rawEx7`. -/
def dsEx7 : DataSet := (processParsedData rawEx7).getD defaultDS

/-- Raw input where column `B` first fails and later succeeds to parse. -/
def rawEx8 : List RawRow :=
  [[("A", .str "1"), ("B", .str "foo")], [("A", .str "bar"), ("B", .str "2")]]

/-- A fitting routine returning an infinite (but not `NaN`) coefficient. -/
def fitInf : List (List ℚ) → List ℚ → List JSNum :=
  fun _ _ => [.finite 1, .inf]

/-- A fitting routine returning a `NaN` coefficient. -/
def fitNan : List (List ℚ) → List ℚ → List JSNum :=
  fun _ _ => [.nan, .finite 1]

/-- A fitting routine returning finite weights. -/
def fitFin : List (List ℚ) → List ℚ → List JSNum :=
  fun _ _ => [.finite 5, .finite 0]

/-- A previously trained model stored in the application state. -/
def prevModel : TrainSuccess :=
  ⟨[.finite 1], ⟨[], .finite 1, .finite 0, .finite 0, .finite 0⟩, ["a"], "y"⟩

/-- An application state holding a dataset and a previously valid model. -/
def appStateEx : AppState := ⟨some dsEx4, some prevModel⟩

/-! ## Helper lemmas -/

theorem dotQ_eq_zipWith (cs xs : List ℚ) :
    dotQ cs xs = (List.zipWith (fun c v => c * v) cs xs).sum := by
  induction cs generalizing xs with
  | nil => cases xs <;> simp [dotQ]
  | cons c cs ih =>
      cases xs with
      | nil => simp [dotQ]
      | cons x xs => simp [dotQ, ih]

theorem not_selection {dv : String} {iv : List String}
    (hdv : dv ≠ "") (hiv : iv ≠ []) : ¬(dv = "" ∨ iv = []) :=
  fun h => h.elim hdv hiv

/-! ## C1 -/

/-- C1: for every trained model with `k` independent variables, Predict on
an input vector of length `k` returns the intercept plus the dot product of
the coefficient vector with the input vector in the positional order fixed
at fit time, and Predict on an input vector of any other length fails with
`DimensionMismatchError`. -/
theorem C1_predict_correct (m : TrainedModel) (input : List ℚ) :
    (input.length = m.coefficients.length →
      predictModel m input =
        .ok (m.intercept + (List.zipWith (fun c v => c * v) m.coefficients input).sum)) ∧
    (input.length ≠ m.coefficients.length →
      predictModel m input = .error .DimensionMismatchError) := by
  constructor
  · intro h
    simp [predictModel, h, dotQ_eq_zipWith]
  · intro h
    simp [predictModel, h]

/-- C1 witness: a model fit with 2 independent variables, invoked with a
1-element input vector, fails with `DimensionMismatchError`. -/
theorem C1_predict_correct_witness :
    predictModel ⟨["x1", "x2"], "y", 3, [2, -1]⟩ [5] =
      .error .DimensionMismatchError :=
  (C1_predict_correct ⟨["x1", "x2"], "y", 3, [2, -1]⟩ [5]).2 (by decide)

/-! ## C4 -/

/-- C4: with a dependent variable and at least one independent variable
selected, training fails with `InsufficientDataError` exactly when the
clean-row count `n` satisfies `n < k + 2`; the check precedes any fitting
arithmetic — the statement is quantified over an arbitrary fitting
routine, which the insufficient-data branch never consults. -/
theorem C4_insufficient_data (fitFn : List (List ℚ) → List ℚ → List JSNum)
    (dv : String) (iv : List String) (ds : DataSet)
    (hdv : dv ≠ "") (hiv : iv ≠ []) :
    handleTrainModel fitFn dv iv ds = .error .InsufficientDataError ↔
      (cleanData dv iv ds.data).length < iv.length + 2 := by
  rw [handleTrainModel, if_neg (not_selection hdv hiv)]
  constructor
  · intro h
    by_contra hlt
    rw [if_neg hlt] at h
    split_ifs at h <;> simp_all
  · intro h
    rw [if_pos h]

/-- C4 witness: a dataset of 3 clean rows with 2 independent variables
(`n = 3 < 4 = k + 2`) fails with `InsufficientDataError`, for an arbitrary
choice of fitting routine. -/
theorem C4_insufficient_data_witness :
    handleTrainModel fitFin "y" ["a", "b"] dsEx4 = .error .InsufficientDataError :=
  (C4_insufficient_data fitFin "y" ["a", "b"] dsEx4 (by decide) (by decide)).mpr
    (by with_unfolding_all decide)

/-! ## C3 -/

/-- C3 counterexample: with three clean rows (passing the `n ≥ k + 2`
check) and a fitting outcome whose coefficient vector contains `+∞` — a
non-finite value that is not `NaN` — training does **not** fail with
`SingularMatrixError`: the `isNaN`-only check passes and a model is
produced.  This refutes the claim that any non-finite coefficient vector
triggers `SingularMatrixError`. -/
theorem C3_counterexample :
    ("y" : String) ≠ "" ∧ (["x"] : List String) ≠ [] ∧
    ¬((cleanData "y" ["x"] dsEx3.data).length < List.length ["x"] + 2) ∧
    (fitWeights fitInf "y" ["x"] dsEx3.data).any (fun w => !(jsIsFinite w)) = true ∧
    isOkTrain (handleTrainModel fitInf "y" ["x"] dsEx3) = true := by
  with_unfolding_all decide

/-- C3 as amended: for every fit whose clean-row count passes the
`n ≥ k + 2` check, if the fitted coefficient vector contains any `NaN`
value then training fails with `SingularMatrixError` and returns no
model; coefficient vectors containing only `±∞` among their non-finite
values pass the check. -/
theorem C3_nan_singular (fitFn : List (List ℚ) → List ℚ → List JSNum)
    (dv : String) (iv : List String) (ds : DataSet)
    (hdv : dv ≠ "") (hiv : iv ≠ [])
    (hn : ¬((cleanData dv iv ds.data).length < iv.length + 2))
    (hnan : (fitWeights fitFn dv iv ds.data).any jsIsNaN = true) :
    handleTrainModel fitFn dv iv ds = .error .SingularMatrixError := by
  rw [handleTrainModel, if_neg (not_selection hdv hiv), if_neg hn, if_pos hnan]

/-- C3 witness: a `NaN` coefficient from the fitting routine makes the
training action fail with `SingularMatrixError`. -/
theorem C3_nan_singular_witness :
    handleTrainModel fitNan "y" ["x"] dsEx3 = .error .SingularMatrixError :=
  C3_nan_singular fitNan "y" ["x"] dsEx3 (by decide) (by decide)
    (by with_unfolding_all decide) (by with_unfolding_all rfl)

/-! ## C5 -/

/-- C5: when the dependent variable has zero sample variance over the clean
rows (and the earlier guards pass), training fails with `ZeroVarianceError`
before the metric divisions are performed — provided the fitted weights
pass the `NaN` check, which the source consults first — and, for **any**
fitting outcome whatsoever, no model is produced. -/
theorem C5_zero_variance (fitFn : List (List ℚ) → List ℚ → List JSNum)
    (dv : String) (iv : List String) (ds : DataSet)
    (hdv : dv ≠ "") (hiv : iv ≠ [])
    (hn : ¬((cleanData dv iv ds.data).length < iv.length + 2))
    (hv : sampleVarianceQ (cleanY dv iv ds.data) = 0) :
    ((fitWeights fitFn dv iv ds.data).any jsIsNaN = false →
      handleTrainModel fitFn dv iv ds = .error .ZeroVarianceError) ∧
    (∀ fitFn', isOkTrain (handleTrainModel fitFn' dv iv ds) = false) := by
  have hk : 0 < iv.length := List.length_pos.mpr hiv
  have hlen : (cleanY dv iv ds.data).length = (cleanData dv iv ds.data).length := by
    simp [cleanY]
  have hn3 : 3 ≤ (cleanY dv iv ds.data).length := by omega
  have hne : ((cleanY dv iv ds.data).length : ℚ) - 1 ≠ 0 := by
    have h3 : (3 : ℚ) ≤ ((cleanY dv iv ds.data).length : ℚ) := by exact_mod_cast hn3
    linarith
  have hss : ssTotal dv iv ds.data = 0 := by
    rw [sampleVarianceQ] at hv
    rcases div_eq_zero_iff.mp hv with h | h
    · exact h
    · exact absurd h hne
  constructor
  · intro hno
    rw [handleTrainModel, if_neg (not_selection hdv hiv), if_neg hn,
      if_neg (by simp [hno]), if_pos hss]
  · intro fitFn'
    rw [handleTrainModel, if_neg (not_selection hdv hiv), if_neg hn]
    by_cases hnan : (fitWeights fitFn' dv iv ds.data).any jsIsNaN = true
    · rw [if_pos hnan]
      rfl
    · rw [if_neg hnan, if_pos hss]
      rfl

/-- C5 witness: a constant dependent variable over three clean rows fails
with `ZeroVarianceError`. -/
theorem C5_zero_variance_witness :
    handleTrainModel fitFin "y" ["x"] dsEx5 = .error .ZeroVarianceError :=
  (C5_zero_variance fitFin "y" ["x"] dsEx5 (by decide) (by decide)
      (by with_unfolding_all decide) (by with_unfolding_all rfl)).1
    (by with_unfolding_all rfl)

/-! ## C9 -/

/-- C9: a failed fit leaves the application state — in particular the
stored `TrainedModel`/`ModelResults` — unchanged, and a successful fit
replaces the stored model wholesale with the freshly trained one. -/
theorem C9_failed_fit_preserves_state
    (fitFn : List (List ℚ) → List ℚ → List JSNum)
    (dv : String) (iv : List String) (s : AppState) (ds : DataSet)
    (hds : s.dataSet = some ds) :
    (∀ e, handleTrainModel fitFn dv iv ds = .error e →
      trainAction fitFn dv iv s = s) ∧
    (∀ out, handleTrainModel fitFn dv iv ds = .ok out →
      trainAction fitFn dv iv s = { s with model := some out }) := by
  constructor
  · intro e he
    simp [trainAction, hds, he]
  · intro out hout
    simp [trainAction, hds, hout, handleModelTrain]

/-- C9 witness: a training attempt failing on insufficient data leaves an
application state holding a previously valid model untouched. -/
theorem C9_failed_fit_preserves_state_witness :
    trainAction fitFin "y" ["a", "b"] appStateEx = appStateEx :=
  (C9_failed_fit_preserves_state fitFin "y" ["a", "b"] appStateEx dsEx4 rfl).1
    .InsufficientDataError (by with_unfolding_all rfl)

/-! ## C7 -/

/-- C7 counterexample: in the dataset coerced from the raw rows
`[{A: "5"}, {A: ""}]`, column `A` is numeric and has exactly one valid
number, yet the reported statistics count both values — the empty string
(a non-numeric string) passes the `v !== null && !isNaN(v)` filter because
`isNaN("") === false`.  This refutes the claim that the statistics are
computed only over values of an `isValidNumber` predicate excluding all
non-numeric strings. -/
theorem C7_counterexample :
    (validNumbers dsEx7.data "A").length = 1 ∧
    statCount dsEx7 "A" = some 2 := by
  with_unfolding_all decide

/-- C7 as amended: for every numeric header, the descriptive statistics
are computed over exactly the row values passing the source's filter
`v !== null && !isNaN(v)` — which excludes `NaN`/`undefined` sentinels and
strings that do not coerce to a number, but admits empty or whitespace-only
strings (coerced to `0`) — and if the filtered list is empty the column is
omitted from the output map entirely. -/
theorem C7_stats_filter (ds : DataSet) (h : String)
    (hmem : h ∈ ds.numericHeaders) :
    (colValues ds.data h = [] → stats ds h = none) ∧
    (colValues ds.data h ≠ [] →
      stats ds h = some (mkColStats (colValues ds.data h))) ∧
    (∀ v ∈ colValues ds.data h, jsIsNaNVal v = false) := by
  refine ⟨fun hnil => ?_, fun hne => ?_, fun v hv => ?_⟩
  · simp [stats, hnil]
  · simp [stats, hmem, List.length_pos.mpr hne]
  · rw [colValues] at hv
    simpa using (List.mem_filter.mp hv).2

/-- C7 witness: the amended statement at the concrete dataset coerced from
`[{A: "5"}, {A: ""}]`. -/
theorem C7_stats_filter_witness :
    (colValues dsEx7.data "A" = [] → stats dsEx7 "A" = none) ∧
    (colValues dsEx7.data "A" ≠ [] →
      stats dsEx7 "A" = some (mkColStats (colValues dsEx7.data "A"))) ∧
    (∀ v ∈ colValues dsEx7.data "A", jsIsNaNVal v = false) :=
  C7_stats_filter dsEx7 "A" (by with_unfolding_all decide)

/-! ## C2 -/

theorem filter_all_num_map_asNumber (l : List Value)
    (hall : ∀ v ∈ l.filter (fun v => !(jsIsNaNVal v)), isNumCell v = true) :
    (l.filter (fun v => !(jsIsNaNVal v))).map asNumber
      = l.filterMap (fun v => match v with | .num q => some q | _ => none) := by
  induction l with
  | nil => simp
  | cons c r ih =>
      cases c with
      | num q =>
          rw [List.filter_cons_of_pos (by simp [jsIsNaNVal])] at hall ⊢
          rw [List.filterMap_cons, List.map_cons]
          have hr : ∀ v ∈ r.filter (fun v => !(jsIsNaNVal v)), isNumCell v = true :=
            fun v hv => hall v (List.mem_cons_of_mem _ hv)
          rw [ih hr]
          rfl
      | str s =>
          by_cases hp : jsIsNaNVal (Value.str s) = true
          · rw [List.filter_cons_of_neg (by simp [hp])] at hall ⊢
            rw [List.filterMap_cons]
            exact ih hall
          · exfalso
            have hmem : Value.str s ∈ (Value.str s :: r).filter (fun v => !(jsIsNaNVal v)) := by
              rw [List.filter_cons_of_pos (by simp [hp])]
              exact List.mem_cons_self _ _
            have := hall _ hmem
            simp [isNumCell] at this
      | missing =>
          rw [List.filter_cons_of_neg (by simp [jsIsNaNVal])] at hall ⊢
          rw [List.filterMap_cons]
          exact ih hall

theorem colValues_map_asNumber (data : List Row) (h : String)
    (hall : ∀ v ∈ colValues data h, isNumCell v = true) :
    (colValues data h).map asNumber = validNumbers data h := by
  rw [colValues, validNumbers]
  exact filter_all_num_map_asNumber _ (by rw [colValues] at hall; exact hall)

/-- C2 counterexample: in the dataset coerced from the raw rows
`[{A:"5"}, {A:"7"}, {A:""}]`, column `A` is numeric and its filtered
valid-number list is `[5, 7]` with sample variance `2` — the claim's side
conditions hold with `n = 2 ≥ 2` — yet the code reports count `3` and a
squared standard deviation of `13`: the empty string passes the
`!isNaN(v)` filter (`isNaN("") === false`), coerces to `0`, and enters the
computation.  This refutes the claim that the reported std is the sample
standard deviation of the valid numbers. -/
theorem C2_counterexample :
    "A" ∈ dsEx2c.numericHeaders ∧
    (validNumbers dsEx2c.data "A").length = 2 ∧
    sampleVarianceQ (validNumbers dsEx2c.data "A") = 2 ∧
    statCount dsEx2c "A" = some 3 ∧
    (stats dsEx2c "A").map ColStats.stdSq = some 13 := by
  with_unfolding_all decide

/-- C2 as amended: for every numeric column whose code-filtered list
(the values passing `v !== null && !isNaN(v)`) has `n ≥ 2` entries, the
reported count is `n` and the reported std (represented by its square) is
the sample standard deviation — sum of squared deviations from the mean
divided by `n − 1` — of the filter-passing values after JavaScript numeric
coercion (empty or whitespace-only strings counting as `0`); whenever
every filter-passing value is a valid number, this coincides with the
sample standard deviation of the column's valid numbers. -/
theorem C2_std_filtered (ds : DataSet) (h : String)
    (hmem : h ∈ ds.numericHeaders)
    (hn : 2 ≤ (colValues ds.data h).length) :
    ∃ st, stats ds h = some st ∧
      st.count = (colValues ds.data h).length ∧
      st.stdSq = qsum (((colValues ds.data h).map asNumber).map
          (fun v => (v - qmean ((colValues ds.data h).map asNumber)) ^ 2))
        / (((colValues ds.data h).length : ℚ) - 1) ∧
      ((∀ v ∈ colValues ds.data h, isNumCell v = true) →
        st.stdSq = qsum ((validNumbers ds.data h).map
            (fun v => (v - qmean (validNumbers ds.data h)) ^ 2))
          / (((validNumbers ds.data h).length : ℚ) - 1)) := by
  refine ⟨mkColStats (colValues ds.data h), ?_, rfl, ?_, ?_⟩
  · rw [stats, if_pos ⟨hmem, by omega⟩]
  · rw [mkColStats]
    simp only [sampleVarianceQ, ssqDev, List.length_map]
  · intro hall
    have hEq := colValues_map_asNumber ds.data h hall
    rw [mkColStats]
    simp only [sampleVarianceQ, ssqDev, hEq, List.length_map]

/-- C2 witness: the amended statement at the dataset coerced from
`[{A:"5"}, {A:"7"}, {A:""}]` (count `3`, squared std
`((5−4)² + (7−4)² + (0−4)²)/2 = 13` over the coerced filtered values). -/
theorem C2_std_filtered_witness :
    ∃ st, stats dsEx2c "A" = some st ∧
      st.count = (colValues dsEx2c.data "A").length ∧
      st.stdSq = qsum (((colValues dsEx2c.data "A").map asNumber).map
          (fun v => (v - qmean ((colValues dsEx2c.data "A").map asNumber)) ^ 2))
        / (((colValues dsEx2c.data "A").length : ℚ) - 1) ∧
      ((∀ v ∈ colValues dsEx2c.data "A", isNumCell v = true) →
        st.stdSq = qsum ((validNumbers dsEx2c.data "A").map
            (fun v => (v - qmean (validNumbers dsEx2c.data "A")) ^ 2))
          / (((validNumbers dsEx2c.data "A").length : ℚ) - 1)) :=
  C2_std_filtered dsEx2c "A" (by with_unfolding_all decide)
    (by with_unfolding_all decide)

/-! ## C8 -/

theorem mem_stepNumeric {raw : RawRow} {nh : List String} {k h : String} :
    h ∈ stepNumeric raw nh k ↔
      h ∈ nh ∨ (h = k ∧ (coerceCell (rawLookup raw k)).isSome = true) := by
  rw [stepNumeric]
  split_ifs with h1 h2
  · constructor
    · exact Or.inl
    · rintro (hm | ⟨rfl, _⟩)
      · exact hm
      · exact h2
  · rw [List.mem_append, List.mem_singleton]
    constructor
    · rintro (hm | rfl)
      · exact Or.inl hm
      · exact Or.inr ⟨rfl, h1⟩
    · rintro (hm | ⟨rfl, _⟩)
      · exact Or.inl hm
      · exact Or.inr rfl
  · constructor
    · exact Or.inl
    · rintro (hm | ⟨rfl, hs⟩)
      · exact hm
      · exact absurd hs h1

theorem mem_innerFold (raw : RawRow) (keys : List String) :
    ∀ (nh : List String) (h : String),
      h ∈ keys.foldl (stepNumeric raw) nh ↔
        h ∈ nh ∨ (h ∈ keys ∧ (coerceCell (rawLookup raw h)).isSome = true) := by
  induction keys with
  | nil => simp
  | cons k rest ih =>
      intro nh h
      rw [List.foldl_cons, ih, mem_stepNumeric]
      constructor
      · rintro ((hm | ⟨rfl, hs⟩) | ⟨hk, hs⟩)
        · exact Or.inl hm
        · exact Or.inr ⟨List.mem_cons_self _ _, hs⟩
        · exact Or.inr ⟨List.mem_cons_of_mem _ hk, hs⟩
      · rintro (hm | ⟨hk, hs⟩)
        · exact Or.inl (Or.inl hm)
        · rcases List.mem_cons.mp hk with rfl | hk2
          · exact Or.inl (Or.inr ⟨rfl, hs⟩)
          · exact Or.inr ⟨hk2, hs⟩

theorem nodup_stepNumeric {raw : RawRow} {nh : List String} {k : String}
    (hnd : nh.Nodup) : (stepNumeric raw nh k).Nodup := by
  rw [stepNumeric]
  split_ifs with h1 h2
  · exact hnd
  · simp [List.nodup_append, hnd, h2]
  · exact hnd

theorem nodup_innerFold (raw : RawRow) (keys : List String) :
    ∀ nh : List String, nh.Nodup → (keys.foldl (stepNumeric raw) nh).Nodup := by
  induction keys with
  | nil => exact fun nh h => h
  | cons k rest ih => exact fun nh h => ih _ (nodup_stepNumeric h)

theorem mem_outerFold (headers : List String) (rows : List RawRow) :
    ∀ (nh : List String) (h : String),
      h ∈ rows.foldl (fun nh raw => headers.foldl (stepNumeric raw) nh) nh ↔
        h ∈ nh ∨ ∃ raw ∈ rows,
          h ∈ headers ∧ (coerceCell (rawLookup raw h)).isSome = true := by
  induction rows with
  | nil => simp
  | cons raw rest ih =>
      intro nh h
      rw [List.foldl_cons, ih, mem_innerFold]
      constructor
      · rintro ((hm | ⟨hh, hs⟩) | ⟨raw2, hr2, hh2, hs2⟩)
        · exact Or.inl hm
        · exact Or.inr ⟨raw, List.mem_cons_self _ _, hh, hs⟩
        · exact Or.inr ⟨raw2, List.mem_cons_of_mem _ hr2, hh2, hs2⟩
      · rintro (hm | ⟨raw2, hr2, hh2, hs2⟩)
        · exact Or.inl (Or.inl hm)
        · rcases List.mem_cons.mp hr2 with rfl | hr3
          · exact Or.inl (Or.inr ⟨hh2, hs2⟩)
          · exact Or.inr ⟨raw2, hr3, hh2, hs2⟩

theorem nodup_outerFold (headers : List String) (rows : List RawRow) :
    ∀ nh : List String, nh.Nodup →
      (rows.foldl (fun nh raw => headers.foldl (stepNumeric raw) nh) nh).Nodup := by
  induction rows with
  | nil => exact fun nh h => h
  | cons raw rest ih => exact fun nh h => ih _ (nodup_innerFold raw headers nh h)

/-- C8: the dataset produced by the type-coercion layer from a non-empty
input satisfies: `numericHeaders ⊆ headers`; `numericHeaders` has no
duplicates (each column is added at most once — at its first successful
parse); a column is in `numericHeaders` precisely when it is a header and
some row's value for it parses as a number; and every numeric header has
at least one row holding a valid numeric value for it. -/
theorem C8_numeric_headers (data : List RawRow) (hne : data ≠ []) :
    ∃ ds, processParsedData data = some ds ∧
      (∀ h ∈ ds.numericHeaders, h ∈ ds.headers) ∧
      ds.numericHeaders.Nodup ∧
      (∀ h, h ∈ ds.numericHeaders ↔
        h ∈ ds.headers ∧
          ∃ raw ∈ data, (coerceCell (rawLookup raw h)).isSome = true) ∧
      (∀ h ∈ ds.numericHeaders, ∃ row ∈ ds.data, isNumCell (row h) = true) := by
  cases data with
  | nil => exact absurd rfl hne
  | cons first rest =>
      have hmem : ∀ h, h ∈ buildNumericHeaders (first.map Prod.fst) (first :: rest) ↔
          h ∈ first.map Prod.fst ∧
            ∃ raw ∈ first :: rest, (coerceCell (rawLookup raw h)).isSome = true := by
        intro h
        rw [buildNumericHeaders, mem_outerFold]
        constructor
        · rintro (hm | ⟨raw, hr, hh, hs⟩)
          · exact absurd hm (List.not_mem_nil h)
          · exact ⟨hh, raw, hr, hs⟩
        · rintro ⟨hh, raw, hr, hs⟩
          exact Or.inr ⟨raw, hr, hh, hs⟩
      refine ⟨_, rfl, ?_, ?_, ?_, ?_⟩
      · intro h hm
        exact ((hmem h).mp hm).1
      · exact nodup_outerFold _ _ [] List.nodup_nil
      · exact hmem
      · intro h hm
        obtain ⟨hh, raw, hr, hs⟩ := (hmem h).mp hm
        obtain ⟨q, hq⟩ := Option.isSome_iff_exists.mp hs
        refine ⟨processRow (first.map Prod.fst) raw, List.mem_map.mpr ⟨raw, hr, rfl⟩, ?_⟩
        simp [processRow, hh, hq, isNumCell]

/-- C8 witness: the coercion of `[{A:"1", B:"foo"}, {A:"bar", B:"2"}]`
(column `B` becomes numeric only at the second row). -/
theorem C8_numeric_headers_witness :
    ∃ ds, processParsedData rawEx8 = some ds ∧
      (∀ h ∈ ds.numericHeaders, h ∈ ds.headers) ∧
      ds.numericHeaders.Nodup ∧
      (∀ h, h ∈ ds.numericHeaders ↔
        h ∈ ds.headers ∧
          ∃ raw ∈ rawEx8, (coerceCell (rawLookup raw h)).isSome = true) ∧
      (∀ h ∈ ds.numericHeaders, ∃ row ∈ ds.data, isNumCell (row h) = true) :=
  C8_numeric_headers rawEx8 (by decide)

/-! ## C10 -/

theorem jsIsNaN_eq_true {x : JSNum} : jsIsNaN x = true ↔ x = JSNum.nan := by
  cases x <;> simp [jsIsNaN]

theorem parseOrZero_not_nan (value : String) : parseOrZero value ≠ JSNum.nan := by
  cases hp : jsParseFloatFull value with
  | nan => simp [parseOrZero, hp, JSNum.truthy]
  | finite q =>
      by_cases hq : q = 0
      · simp [parseOrZero, hp, JSNum.truthy, hq]
      · simp [parseOrZero, hp, JSNum.truthy, hq]
  | inf => simp [parseOrZero, hp, JSNum.truthy]
  | neginf => simp [parseOrZero, hp, JSNum.truthy]

theorem allNotNaN_handleInputChange (s : PredictorState) (vn v : String)
    (hs : allNotNaN s) : allNotNaN (handleInputChange s vn v) := by
  intro k
  show (if k = vn then parseOrZero v else s.inputs k) ≠ JSNum.nan
  by_cases hk : k = vn
  · rw [if_pos hk]
    exact parseOrZero_not_nan v
  · rw [if_neg hk]
    exact hs k

theorem allNotNaN_applyEvents (evs : List (String × String)) :
    ∀ s : PredictorState, allNotNaN s → allNotNaN (applyEvents s evs) := by
  induction evs with
  | nil => exact fun s h => h
  | cons e rest ih =>
      intro s h
      rw [applyEvents, List.foldl_cons]
      exact ih _ (allNotNaN_handleInputChange s e.1 e.2 h)

set_option maxRecDepth 8000 in
set_option exponentiation.threshold 3000 in
/-- C10 counterexample: typing the overflow literal `1e999` into a
prediction input stores `Infinity` — `parseFloat("1e999")` is `Infinity`,
which is truthy, so `parseFloat(value) || 0` keeps it — a value that is
**not** finite; the `isNaN` rejection branch still does not fire and the
model's predict is invoked with the non-finite value.  This refutes the
claim that the stored input value is always a finite number. -/
theorem C10_counterexample :
    (applyEvents initPredictor [("a", "1e999")]).inputs "a" = JSNum.inf ∧
    jsIsFinite ((applyEvents initPredictor [("a", "1e999")]).inputs "a") = false ∧
    handlePredict ⟨["a"], "y", 0, [1]⟩ ["a"]
        (applyEvents initPredictor [("a", "1e999")]) = .ok JSNum.inf := by
  refine ⟨?_, ?_, ?_⟩ <;> with_unfolding_all rfl

/-- C10 as amended: after any sequence of prediction-form edits starting
from the initial state, every stored input value is a non-`NaN` number —
entries whose parse is `NaN` (non-numeric or empty) are coerced to `0` at
input time by `parseFloat(value) || 0` — so the invalid-value rejection
branch of `handlePredict` never fires and the model's predict is invoked
with exactly one non-`NaN` number per independent variable.  (The stored
value need not be finite: overflow literals such as `1e999` store
`Infinity`, as the counterexample shows.) -/
theorem C10_inputs_never_nan (evs : List (String × String))
    (m : TrainedModel) (iv : List String)
    (hk : m.coefficients.length = iv.length) :
    ((iv.map (applyEvents initPredictor evs).inputs).any jsIsNaN = false) ∧
    (∀ k, (applyEvents initPredictor evs).inputs k ≠ JSNum.nan) ∧
    (iv.map (applyEvents initPredictor evs).inputs).length = iv.length ∧
    handlePredict m iv (applyEvents initPredictor evs) =
      .ok (JSNum.add (.finite m.intercept)
        (sumJS (List.zipWith (fun c v => JSNum.mul (.finite c) v)
          m.coefficients (iv.map (applyEvents initPredictor evs).inputs)))) := by
  have hnn : allNotNaN (applyEvents initPredictor evs) :=
    allNotNaN_applyEvents evs initPredictor (fun k h => JSNum.noConfusion h)
  have hguard : (iv.map (applyEvents initPredictor evs).inputs).any jsIsNaN = false := by
    rw [List.any_eq_false]
    intro x hx
    obtain ⟨k, hkm, rfl⟩ := List.mem_map.mp hx
    rw [jsIsNaN_eq_true]
    exact hnn k
  refine ⟨hguard, hnn, by rw [List.length_map], ?_⟩
  rw [handlePredict, if_neg (by simp [hguard]), predictModelJS,
    if_pos (by rw [List.length_map, hk])]

/-- C10 witness: after editing `a` to the non-numeric `"abc"`, `b` to
`"2.5"` and `a` again to the overflow literal `"1e999"`, no stored value
is `NaN`, the rejection branch does not fire, and predict is invoked with
one value per variable. -/
theorem C10_inputs_never_nan_witness :
    ((["a", "b"].map (applyEvents initPredictor
        [("a", "abc"), ("b", "2.5"), ("a", "1e999")]).inputs).any jsIsNaN = false) ∧
    (∀ k, (applyEvents initPredictor
        [("a", "abc"), ("b", "2.5"), ("a", "1e999")]).inputs k ≠ JSNum.nan) ∧
    (["a", "b"].map (applyEvents initPredictor
        [("a", "abc"), ("b", "2.5"), ("a", "1e999")]).inputs).length =
      (["a", "b"] : List String).length ∧
    handlePredict ⟨["a", "b"], "y", 1, [2, 3]⟩ ["a", "b"]
        (applyEvents initPredictor [("a", "abc"), ("b", "2.5"), ("a", "1e999")]) =
      .ok (JSNum.add (.finite 1)
        (sumJS (List.zipWith (fun c v => JSNum.mul (.finite c) v)
          [2, 3] (["a", "b"].map (applyEvents initPredictor
            [("a", "abc"), ("b", "2.5"), ("a", "1e999")]).inputs)))) :=
  C10_inputs_never_nan [("a", "abc"), ("b", "2.5"), ("a", "1e999")]
    ⟨["a", "b"], "y", 1, [2, 3]⟩ ["a", "b"] (by decide)

/-! ## C6 -/

theorem corrInner_ne (corr : List Value → List Value → ℚ) (data : List Row)
    (h1 : String) :
    ∀ (H : List String) (M : Mat) (a b : String), a ≠ h1 →
      corrInner corr data H h1 M a b = M a b := by
  intro H
  induction H with
  | nil => intro M a b _; rfl
  | cons h2 rest ih =>
      intro M a b hne
      have hstep : corrInner corr data (h2 :: rest) h1 M =
          corrInner corr data rest h1
            (setEntry M h1 h2 (corrEntry corr data M h1 h2)) := rfl
      rw [hstep, ih _ a b hne]
      simp [setEntry, hne]

theorem corrEntry_congr (corr : List Value → List Value → ℚ) (data : List Row)
    {M N : Mat} (h1 b : String)
    (hoff : ∀ a c, a ≠ h1 → N a c = M a c) :
    corrEntry corr data N h1 b = corrEntry corr data M h1 b := by
  rw [corrEntry, corrEntry]
  by_cases hb : h1 = b
  · rw [if_pos hb, if_pos hb]
  · rw [if_neg hb, if_neg hb, hoff b h1 (Ne.symm hb)]

theorem corrInner_row (corr : List Value → List Value → ℚ) (data : List Row)
    (h1 : String) :
    ∀ (H : List String) (M : Mat) (b : String),
      corrInner corr data H h1 M h1 b =
        if b ∈ H then some (corrEntry corr data M h1 b) else M h1 b := by
  intro H
  induction H with
  | nil => intro M b; simp [corrInner]
  | cons h2 rest ih =>
      intro M b
      have hstep : corrInner corr data (h2 :: rest) h1 M =
          corrInner corr data rest h1
            (setEntry M h1 h2 (corrEntry corr data M h1 h2)) := rfl
      have hoff : ∀ a c, a ≠ h1 →
          (setEntry M h1 h2 (corrEntry corr data M h1 h2)) a c = M a c := by
        intro a c ha
        simp [setEntry, ha]
      rw [hstep, ih, corrEntry_congr corr data h1 b hoff]
      by_cases hbr : b ∈ rest
      · rw [if_pos hbr, if_pos (List.mem_cons_of_mem _ hbr)]
      · rw [if_neg hbr]
        by_cases hbh : b = h2
        · subst hbh
          rw [if_pos (List.mem_cons_self _ _)]
          simp [setEntry]
        · have hnot : b ∉ h2 :: rest := by
            simp [List.mem_cons, hbh, hbr]
          rw [if_neg hnot]
          simp [setEntry, hbh]

theorem corrInv_step (corr : List Value → List Value → ℚ) (data : List Row)
    (H done : List String) (M : Mat) (h1 : String)
    (hinv : CorrInv H done M) (hnotdone : h1 ∉ done) (hH : h1 ∈ H) :
    CorrInv H (done ++ [h1]) (corrInner corr data H h1 (clearRow M h1)) := by
  obtain ⟨inv1, inv2, inv3, inv4, inv5⟩ := hinv
  have hoffM0 : ∀ a b, a ≠ h1 → clearRow M h1 a b = M a b := by
    intro a b ha
    simp [clearRow, ha]
  have hNoff : ∀ a b, a ≠ h1 →
      corrInner corr data H h1 (clearRow M h1) a b = M a b := by
    intro a b ha
    rw [corrInner_ne corr data h1 H _ a b ha]
    exact hoffM0 a b ha
  have hNrow : ∀ b, corrInner corr data H h1 (clearRow M h1) h1 b =
      if b ∈ H then some (corrEntry corr data (clearRow M h1) h1 b) else none := by
    intro b
    rw [corrInner_row corr data h1 H _ b]
    by_cases hb : b ∈ H
    · rw [if_pos hb, if_pos hb]
    · rw [if_neg hb, if_neg hb]
      simp [clearRow]
  -- the value stored for a previously processed column is the mirror entry
  have hmirror : ∀ b ∈ done, corrInner corr data H h1 (clearRow M h1) h1 b = M b h1 := by
    intro b hb
    have hbh1 : b ≠ h1 := fun he => hnotdone (he ▸ hb)
    obtain ⟨v, hv⟩ := Option.isSome_iff_exists.mp ((inv2 b hb h1).mpr hH)
    rw [hNrow b, if_pos (inv5 b hb), hv]
    congr 1
    rw [corrEntry, if_neg (Ne.symm hbh1), hoffM0 b h1 hbh1, hv]
  refine ⟨?_, ?_, ?_, ?_, ?_⟩
  · intro a ha b
    have hna : a ∉ done ∧ a ≠ h1 := by
      constructor
      · exact fun h => ha (List.mem_append.mpr (Or.inl h))
      · exact fun h => ha (List.mem_append.mpr (Or.inr (by simp [h])))
    rw [hNoff a b hna.2]
    exact inv1 a hna.1 b
  · intro a ha b
    rcases List.mem_append.mp ha with hd | hs
    · have hah1 : a ≠ h1 := fun he => hnotdone (he ▸ hd)
      rw [hNoff a b hah1]
      exact inv2 a hd b
    · have hah1 : a = h1 := by simpa using hs
      subst hah1
      rw [hNrow b]
      by_cases hb : b ∈ H
      · simp [hb]
      · simp [hb]
  · intro a ha b hb
    rcases List.mem_append.mp ha with hda | hsa
    · rcases List.mem_append.mp hb with hdb | hsb
      · have hah1 : a ≠ h1 := fun he => hnotdone (he ▸ hda)
        have hbh1 : b ≠ h1 := fun he => hnotdone (he ▸ hdb)
        rw [hNoff a b hah1, hNoff b a hbh1]
        exact inv3 a hda b hdb
      · have hbh1 : b = h1 := by simpa using hsb
        subst hbh1
        have hah1 : a ≠ b := fun he => hnotdone (he ▸ hda)
        rw [hNoff a b hah1, hmirror a hda]
    · have hah1 : a = h1 := by simpa using hsa
      subst hah1
      rcases List.mem_append.mp hb with hdb | hsb
      · have hbh1 : b ≠ a := fun he => hnotdone (he ▸ hdb)
        rw [hNoff b a hbh1, hmirror b hdb]
      · have hbh1 : b = a := by simpa using hsb
        subst hbh1
        rfl
  · intro a ha
    rcases List.mem_append.mp ha with hd | hs
    · have hah1 : a ≠ h1 := fun he => hnotdone (he ▸ hd)
      rw [hNoff a a hah1]
      exact inv4 a hd
    · have hah1 : a = h1 := by simpa using hs
      subst hah1
      rw [hNrow a, if_pos hH, corrEntry, if_pos rfl]
  · intro a ha
    rcases List.mem_append.mp ha with hd | hs
    · exact inv5 a hd
    · have hah1 : a = h1 := by simpa using hs
      subst hah1
      exact hH

theorem corrInv_fold (corr : List Value → List Value → ℚ) (data : List Row)
    (H : List String) :
    ∀ (rest done : List String) (M : Mat),
      (∀ x ∈ rest, x ∈ H) → (∀ x ∈ rest, x ∉ done) → rest.Nodup →
      CorrInv H done M →
      CorrInv H (done ++ rest)
        (rest.foldl (fun M h1 => corrInner corr data H h1 (clearRow M h1)) M) := by
  intro rest
  induction rest with
  | nil =>
      intro done M _ _ _ hinv
      simpa using hinv
  | cons h1 rest ih =>
      intro done M hsub hdisj hnd hinv
      rw [List.foldl_cons]
      have hstep := corrInv_step corr data H done M h1 hinv
        (hdisj h1 (List.mem_cons_self _ _)) (hsub h1 (List.mem_cons_self _ _))
      have hnd2 := List.nodup_cons.mp hnd
      have hdisj2 : ∀ x ∈ rest, x ∉ done ++ [h1] := by
        intro x hx hmem
        rcases List.mem_append.mp hmem with hd | hs
        · exact hdisj x (List.mem_cons_of_mem _ hx) hd
        · have : x = h1 := by simpa using hs
          exact hnd2.1 (this ▸ hx)
      have hres := ih (done ++ [h1]) _
        (fun x hx => hsub x (List.mem_cons_of_mem _ hx)) hdisj2 hnd2.2 hstep
      have hassoc : done ++ [h1] ++ rest = done ++ h1 :: rest := by
        rw [List.append_assoc, List.singleton_append]
      rw [hassoc] at hres
      exact hres

/-- C6: for every dataset (with duplicate-free numeric headers, as the
coercion layer produces them) and **any** correlation function — the
quantification over an arbitrary, possibly asymmetric `corr` expresses
that each unordered pair is computed once and mirrored, never recomputed —
the correlation matrix is symmetric on the numeric headers and its
diagonal is exactly `1`. -/
theorem C6_correlation_symmetric (corr : List Value → List Value → ℚ)
    (ds : DataSet) (hnd : ds.numericHeaders.Nodup)
    (a b : String) (ha : a ∈ ds.numericHeaders) (hb : b ∈ ds.numericHeaders) :
    correlationMatrix corr ds a b = correlationMatrix corr ds b a ∧
    correlationMatrix corr ds a a = some 1 := by
  have hbase : CorrInv ds.numericHeaders [] emptyMat := by
    refine ⟨fun _ _ _ => rfl, ?_, ?_, ?_, ?_⟩ <;> simp
  have hinv := corrInv_fold corr ds.data ds.numericHeaders ds.numericHeaders []
    emptyMat (fun x hx => hx) (fun x _ hx => (List.not_mem_nil x) hx) hnd hbase
  rw [List.nil_append] at hinv
  obtain ⟨_, _, hsym, hdiag, _⟩ := hinv
  exact ⟨hsym a ha b hb, hdiag a ha⟩

/-- C6 witness: the matrix built over two numeric columns with a
deliberately asymmetric stand-in correlation function is symmetric with
unit diagonal. -/
theorem C6_correlation_symmetric_witness :
    correlationMatrix corrEx dsEx6 "A" "B" = correlationMatrix corrEx dsEx6 "B" "A" ∧
    correlationMatrix corrEx dsEx6 "A" "A" = some 1 :=
  C6_correlation_symmetric corrEx dsEx6 (by decide) "A" "B" (by decide) (by decide)
